import Mathlib

/-!
Shallow embedding of `src/job_hunter.py` (the job-search automation script)
and proofs of the specified behavioural properties.

Modelling conventions:
* Python strings are Lean `String`s; substring containment (`k in text`)
  is contiguous-sublist containment on the underlying character lists.
* The global `CONFIG` dictionary becomes an explicit `Rubric` value; the
  functions reading it take the rubric as a parameter, with `CONFIG` as the
  concrete value from the source.
* Network and HTML parsing are oracles: a `FetchOutcome` describes, per URL,
  whether fetch/parse raised, the HTTP status, the extracted visible text,
  and the title tag (`none` = no title tag; `some none` = a title tag whose
  string is null, which raises later during record construction).
* The history set (a Python `set`) is a `Finset String`; the report file
  system is an association list from filenames to contents.
* A Python function that can hit a caught exception returns `Option`/sum
  results instead of raising.
-/

namespace JobHunter

/-- Python `k in text` on strings: `k` occurs contiguously inside `text`. -/
def occursIn (k text : String) : Bool := decide (k.data <:+: text.data)

/-- Python `str.lower()`, character by character. -/
def lowerStr (s : String) : String := ⟨s.data.map Char.toLower⟩

/-- The scoring configuration: core skills (label with synonym keywords),
warning keywords (tag-only in this variant), and staleness keywords. -/
structure Rubric where
  coreSkills : List (String × List String)
  warningSkills : List String
  staleKeywords : List String

/-- The concrete `CONFIG` value from the source (scoring-relevant part). -/
def CONFIG : Rubric where
  coreSkills :=
    [ ("GCP", ["gcp", "google cloud", "anthos", "compute engine", "gke", "cloud run", "iam"]),
      ("Terraform", ["terraform", "iac", "infrastructure as code", "terragrunt"]),
      ("CI/CD", ["ci/cd", "jenkins", "gitlab ci", "github actions", "pipelines", "argo"]),
      ("SRE", ["sre", "site reliability", "reliability", "slo", "sli"]),
      ("DevOps", ["devops", "platform", "cloud engineer"]) ]
  warningSkills :=
    [ "java developer", "c++", "expert coding", "compiler design",
      "algorithm expert", "leetcode", "night shift" ]
  staleKeywords := ["job is closed", "position filled", "role is no longer available"]

/-- The record built by `analyze_job` (the dictionary of the source, with
its joined-string fields). -/
structure JobRecord where
  company : String
  jobTitle : String
  location : String
  matchScore : Int
  whyMatches : String
  warnings : String
  missingKeywords : String
  url : String
deriving DecidableEq, Repr

/-- What fetching and parsing one URL produced: either some exception was
raised (network error, malformed HTML, ...) or a response with an HTTP
status, the extracted lower-caseable visible text, and the title tag.
`titleTag = none` models a page with no title element; `titleTag = some none`
models a title element whose string attribute is null. -/
inductive FetchOutcome where
  | raise : FetchOutcome
  | ok (statusCode : Nat) (rawText : String) (titleTag : Option (Option String)) : FetchOutcome
deriving DecidableEq

/-- The scoring loop over core skills: returns the accumulated score, the
matched labels and the missing labels, in iteration order. -/
def scoreSkills (core : List (String × List String)) (text : String) :
    Int × List String × List String :=
  match core with
  | [] => (0, [], [])
  | (label, kws) :: rest =>
    let r := scoreSkills rest text
    if kws.any (fun k => occursIn k text) then (r.1 + 2, label :: r.2.1, r.2.2)
    else (r.1, r.2.1, label :: r.2.2)

/-- Python `str.strip()`: drop leading and trailing whitespace. -/
def stripStr (s : String) : String :=
  ⟨((s.data.dropWhile Char.isWhitespace).reverse.dropWhile Char.isWhitespace).reverse⟩

/-- Company derivation from the page title, line 146 of the source:
`title.split("-")[0].strip()` when a "-" occurs in the title (the stripped
part before the first "-"); "Unknown" otherwise. -/
def companyOf (title : String) : String :=
  if occursIn "-" title then stripStr ⟨title.data.takeWhile (fun c => c ≠ '-')⟩
  else "Unknown"

/-- `analyze_job(url)` from the source, with the fetch/parse oracle made
explicit. Returns `none` exactly when the source returns `None`: raised
exception, non-200 status, stale keyword present, or the null-title-string
record-construction failure. -/
def analyze_job (rubric : Rubric) (url : String) (fetch : FetchOutcome) :
    Option JobRecord :=
  match fetch with
  | .raise => none
  | .ok statusCode rawText titleTag =>
    if statusCode ≠ 200 then none else
    let text := lowerStr rawText
    let title : Option String :=
      match titleTag with
      | none => some "Unknown Role"
      | some ts => ts
    if rubric.staleKeywords.any (fun k => occursIn k text) then none
    else
      let r := scoreSkills rubric.coreSkills text
      let warns := rubric.warningSkills.filter (fun bad => occursIn bad text)
      match title with
      | none => none
      | some t =>
        some { company := companyOf t
               jobTitle := t
               location := "India (Check Link)"
               matchScore := r.1
               whyMatches := String.intercalate ", " r.2.1
               warnings := String.intercalate ", " warns
               missingKeywords := String.intercalate ", " r.2.2
               url := url }

/-- The three environment variables read by `send_email`; `none` models a
variable absent from the environment. -/
structure Env where
  sender : Option String
  password : Option String
  recipient : Option String

/-- Python truthiness of an `os.environ.get` result: falsy when the variable
is absent or set to the empty string. -/
def falsyEnv : Option String → Bool
  | none => true
  | some s => s.isEmpty

/-- The composed MIME message, with the fields the source sets. The top
job and the attachment are present whenever the message is fully composed:
composition requires a non-empty job list and a readable report file. -/
structure EmailMessage where
  fromAddr : Option String
  toAddr : Option String
  matchCount : Nat
  topJob : JobRecord
  attachment : String
deriving DecidableEq

/-- What the emailer did: skipped (credentials missing); raised an uncaught
IndexError at `job_list[0]` because the job list is empty (line 175, outside
the try); raised an uncaught FileNotFoundError opening the report file
(line 191, outside the try); transmitted; or hit a transmission error inside
the try, which is caught and logged. -/
inductive EmailOutcome where
  | skipped : EmailOutcome
  | raisedIndexError : EmailOutcome
  | raisedFileMissing : EmailOutcome
  | sent (msg : EmailMessage) : EmailOutcome
  | failedLogged (msg : EmailMessage) : EmailOutcome
deriving DecidableEq

/-- `send_email(job_list, filename)` from the source. The file system is an
association list from filenames to contents; `smtpOk` is the oracle for
whether the SMTP transmission succeeds. Returns the outcome and the file
system after the call (no branch ever writes a file). Only the SMTP block
sits inside a try/except: an empty job list raises an uncaught IndexError at
`job_list[0]` before the body is composed, and a missing report file raises
an uncaught FileNotFoundError at `open(filename)` — both propagate, and no
transmission is attempted on those paths. -/
def send_email (env : Env) (jobList : List JobRecord) (filename : String)
    (fs : List (String × String)) (smtpOk : Bool) :
    EmailOutcome × List (String × String) :=
  if falsyEnv env.sender || falsyEnv env.password then (.skipped, fs)
  else
    match jobList with
    | [] => (.raisedIndexError, fs)
    | topJob :: rest =>
      match fs.lookup filename with
      | none => (.raisedFileMissing, fs)
      | some content =>
        let msg : EmailMessage :=
          { fromAddr := env.sender
            toAddr := env.recipient
            matchCount := (topJob :: rest).length
            topJob := topJob
            attachment := content }
        ((if smtpOk then .sent msg else .failedLogged msg), fs)

/-- Line 213 of the source: `[link for link in raw_links if link not in history]`. -/
def new_links (rawLinks : List String) (history : Finset String) : List String :=
  rawLinks.filter (fun l => decide (l ∉ history))

/-- Lines 227-229 of the source: keep the analysis result only when a record
was produced and its score is strictly positive. -/
def keepJob (data : Option JobRecord) : Option JobRecord :=
  match data with
  | some d => if d.matchScore > 0 then some d else none
  | none => none

/-- The records the per-link loop retains records, in discovery order. -/
def analyzed_jobs (rubric : Rubric) (links : List String)
    (fetchOf : String → FetchOutcome) : List JobRecord :=
  links.filterMap (fun l => keepJob (analyze_job rubric l (fetchOf l)))

/-- Line 234 of the source: Python stable `sort` with
`key = Match Score, reverse = True`, i.e. a stable sort under the relation
"the score of the right record is at most that of the left one". -/
def sortJobs (jobs : List JobRecord) : List JobRecord :=
  jobs.mergeSort (fun a b => decide (b.matchScore ≤ a.matchScore))

/-- Everything observable `main` did in one run. `savedHistory = none` means
`save_history` was never called; `reportRows = none` means no report file was
written; `sendEmailCalled` records whether the notifier was invoked at all. -/
structure RunOutcome where
  newLinks : List String
  examined : List String
  analyzedJobs : List JobRecord
  reportRows : Option (List JobRecord)
  sendEmailCalled : Bool
  savedHistory : Option (Finset String)

/-- `main()` from the source, over the loaded history, the raw search
results, and the fetch/parse oracle. Mirrors the control flow: early return
when there are no new links (before any save), otherwise analyze each link
while adding it to history, then report/notify only when some record with a
positive score was retained, and finally save the history. -/
def runMain (rubric : Rubric) (history0 : Finset String) (rawLinks : List String)
    (fetchOf : String → FetchOutcome) : RunOutcome :=
  let links := new_links rawLinks history0
  if links.isEmpty then
    { newLinks := links, examined := [], analyzedJobs := [], reportRows := none,
      sendEmailCalled := false, savedHistory := none }
  else
    let history1 := links.foldl (fun h l => insert l h) history0
    let analyzed := analyzed_jobs rubric links fetchOf
    if analyzed.isEmpty then
      { newLinks := links, examined := links, analyzedJobs := analyzed,
        reportRows := none, sendEmailCalled := false, savedHistory := some history1 }
    else
      { newLinks := links, examined := links, analyzedJobs := analyzed,
        reportRows := some (sortJobs analyzed), sendEmailCalled := true,
        savedHistory := some history1 }

/-- A sample retained record (used to exercise the report sort). -/
def sampleJobA : JobRecord :=
  { company := "A", jobTitle := "a", location := "India (Check Link)", matchScore := 2,
    whyMatches := "", warnings := "", missingKeywords := "", url := "u1" }

/-- A second sample record with the same score as `sampleJobA`. -/
def sampleJobB : JobRecord :=
  { company := "B", jobTitle := "b", location := "India (Check Link)", matchScore := 2,
    whyMatches := "", warnings := "", missingKeywords := "", url := "u2" }

/-- A third sample record with a higher score. -/
def sampleJobC : JobRecord :=
  { company := "C", jobTitle := "c", location := "India (Check Link)", matchScore := 4,
    whyMatches := "", warnings := "", missingKeywords := "", url := "u3" }

/-! ## Helper lemmas -/

theorem keepJob_eq_some (data : Option JobRecord) (r : JobRecord) :
    keepJob data = some r ↔ data = some r ∧ 0 < r.matchScore := by
  cases data with
  | none => simp [keepJob]
  | some d =>
    by_cases h : d.matchScore > 0
    · simp only [keepJob, if_pos h, Option.some.injEq]
      constructor
      · rintro rfl; exact ⟨rfl, h⟩
      · rintro ⟨h', _⟩; exact h'
    · simp only [keepJob, if_neg h]
      constructor
      · rintro ⟨⟩
      · rintro ⟨h', hpos⟩
        cases h'
        exact absurd hpos h

theorem scoreSkills_eq (core : List (String × List String)) (text : String) :
    scoreSkills core text =
      (2 * ((core.filter (fun p => p.2.any (fun k => occursIn k text))).length : Int),
       (core.filter (fun p => p.2.any (fun k => occursIn k text))).map Prod.fst,
       (core.filter (fun p => !(p.2.any (fun k => occursIn k text)))).map Prod.fst) := by
  induction core with
  | nil => simp [scoreSkills]
  | cons p rest ih =>
    obtain ⟨label, kws⟩ := p
    simp only [scoreSkills, ih, List.filter_cons]
    by_cases hp : kws.any (fun k => occursIn k text) = true
    · simp only [hp, Bool.not_true, Bool.false_eq_true, if_false, if_true,
        List.length_cons, List.map_cons, Prod.mk.injEq]
      push_cast
      ring_nf
      simp
    · simp only [hp, Bool.not_false, Bool.false_eq_true, if_false, if_true,
        List.map_cons, Prod.mk.injEq]

theorem mem_foldl_insert (l : List String) (s0 : Finset String) (x : String) :
    x ∈ l.foldl (fun s a => insert a s) s0 ↔ x ∈ s0 ∨ x ∈ l := by
  induction l generalizing s0 with
  | nil => simp
  | cons a t ih =>
    simp only [List.foldl_cons, ih, Finset.mem_insert, List.mem_cons]
    tauto

/-! ## Claim theorems -/

/-- C4: for every page whose extracted text contains any configured stale
keyword as a substring (of the lower-cased text), `analyze_job` returns
`none` — no record is produced — regardless of status, title, or how the
page would otherwise score. -/
theorem analyze_stale_suppresses (rubric : Rubric) (url rawText : String)
    (statusCode : Nat) (titleTag : Option (Option String))
    (h : rubric.staleKeywords.any (fun k => occursIn k (lowerStr rawText)) = true) :
    analyze_job rubric url (FetchOutcome.ok statusCode rawText titleTag) = none := by
  by_cases hs : statusCode = 200
  · subst hs
    simp [analyze_job, h]
  · simp [analyze_job, hs]

/-- C4 witness: the concrete stale page "great gcp job. position filled."
is suppressed even though it matches a core skill. -/
theorem analyze_stale_suppresses_witness :
    CONFIG.staleKeywords.any
        (fun k => occursIn k (lowerStr "great GCP job. Position filled.")) = true ∧
    analyze_job CONFIG "https://a.co/j" (FetchOutcome.ok 200 "great GCP job. Position filled."
        (some (some "Acme - SRE"))) = none :=
  ⟨by decide,
   analyze_stale_suppresses CONFIG "https://a.co/j" "great GCP job. Position filled."
     200 (some (some "Acme - SRE")) (by decide)⟩

/-- C6: the new-links collection is exactly the raw search results with the
previously-seen URLs removed: membership is raw-membership minus history,
the raw order of the remaining links is preserved (sublist of the raw list),
and the spec scenario holds. -/
theorem new_links_set_difference (rawLinks : List String) (history : Finset String) :
    (∀ l, l ∈ new_links rawLinks history ↔ l ∈ rawLinks ∧ l ∉ history) ∧
    (new_links rawLinks history).Sublist rawLinks ∧
    new_links ["https://a.co/job1", "https://a.co/job2"] {"https://a.co/job1"} =
      ["https://a.co/job2"] := by
  refine ⟨?_, List.filter_sublist rawLinks, by decide⟩
  intro l
  simp [new_links]

/-- C8: a record produced by `analyze_job` is retained for the report (the
list handed to the report writer and the notifier) exactly when its final
score is strictly positive; zero-score records are discarded. -/
theorem retained_iff_positive_score (rubric : Rubric) (links : List String)
    (fetchOf : String → FetchOutcome) (r : JobRecord) :
    r ∈ analyzed_jobs rubric links fetchOf ↔
      ∃ l ∈ links, analyze_job rubric l (fetchOf l) = some r ∧ 0 < r.matchScore := by
  simp only [analyzed_jobs, List.mem_filterMap]
  constructor
  · rintro ⟨l, hl, hk⟩
    rw [keepJob_eq_some] at hk
    exact ⟨l, hl, hk.1, hk.2⟩
  · rintro ⟨l, hl, ha, hpos⟩
    exact ⟨l, hl, (keepJob_eq_some _ _).mpr ⟨ha, hpos⟩⟩

/-- C3: for every rubric and page text, on a successfully fetched,
non-stale page the record scores 2 points per core-skill label with at
least one synonym occurring in the lower-cased text (warning keywords
contribute 0 in this tag-only variant); the matched labels and the missing
labels are recorded in the corresponding fields. -/
theorem analyze_score_formula (rubric : Rubric) (url rawText titleStr : String)
    (hstale : rubric.staleKeywords.any (fun k => occursIn k (lowerStr rawText)) = false) :
    ∃ r, analyze_job rubric url (FetchOutcome.ok 200 rawText (some (some titleStr))) = some r ∧
      r.matchScore = 2 * ((rubric.coreSkills.filter
          (fun p => p.2.any (fun k => occursIn k (lowerStr rawText)))).length : Int) ∧
      r.whyMatches = String.intercalate ", " ((rubric.coreSkills.filter
          (fun p => p.2.any (fun k => occursIn k (lowerStr rawText)))).map Prod.fst) ∧
      r.missingKeywords = String.intercalate ", " ((rubric.coreSkills.filter
          (fun p => !(p.2.any (fun k => occursIn k (lowerStr rawText))))).map Prod.fst) := by
  have h1 : analyze_job rubric url (FetchOutcome.ok 200 rawText (some (some titleStr))) =
      some { company := companyOf titleStr
             jobTitle := titleStr
             location := "India (Check Link)"
             matchScore := (scoreSkills rubric.coreSkills (lowerStr rawText)).1
             whyMatches := String.intercalate ", "
               (scoreSkills rubric.coreSkills (lowerStr rawText)).2.1
             warnings := String.intercalate ", "
               (rubric.warningSkills.filter (fun bad => occursIn bad (lowerStr rawText)))
             missingKeywords := String.intercalate ", "
               (scoreSkills rubric.coreSkills (lowerStr rawText)).2.2
             url := url } := by
    simp [analyze_job, hstale]
  refine ⟨_, h1, ?_, ?_, ?_⟩ <;> rw [scoreSkills_eq]

/-- C3 witness: the spec scenario rubric with core skills GCP and Terraform
on a page containing "gcp" only: score 2, matched "GCP", missing
"Terraform". -/
theorem analyze_score_formula_witness :
    (Rubric.mk [("GCP", ["gcp"]), ("Terraform", ["terraform"])] [] []).staleKeywords.any
        (fun k => occursIn k (lowerStr "we use gcp")) = false ∧
    (analyze_job (Rubric.mk [("GCP", ["gcp"]), ("Terraform", ["terraform"])] [] []) "u"
        (FetchOutcome.ok 200 "we use gcp" (some (some "T")))).map
          (fun r => (r.matchScore, r.whyMatches, r.missingKeywords)) =
      some (2, "GCP", "Terraform") := by
  refine ⟨by decide, ?_⟩
  obtain ⟨r, h1, h2, h3, h4⟩ := analyze_score_formula
    (Rubric.mk [("GCP", ["gcp"]), ("Terraform", ["terraform"])] [] []) "u" "we use gcp" "T"
    (by decide)
  rw [h1, Option.map_some', h2, h3, h4]
  decide

/-- C2 counterexample: a 200 page with no title element at all does NOT
yield absent — the title defaults to "Unknown Role" and a full record is
produced, refuting "a page with no title element yields no record". -/
theorem analyze_missing_title_record_cex :
    analyze_job CONFIG "https://x" (FetchOutcome.ok 200 "gcp" none) =
      some { company := "Unknown", jobTitle := "Unknown Role",
             location := "India (Check Link)", matchScore := 2, whyMatches := "GCP",
             warnings := "", missingKeywords := "Terraform, CI/CD, SRE, DevOps",
             url := "https://x" } := by
  decide

/-- C2 (amended): any exception during fetch or parse makes `analyze_job`
return `none` rather than propagating, and a title element whose string is
null also ends in `none` (the record construction raises and is caught);
but a page with NO title element does not raise — the title defaults to
"Unknown Role" (company "Unknown") and, when the page is not stale, a
record is still produced. -/
theorem analyze_exception_yields_none (rubric : Rubric) (url rawText : String) :
    analyze_job rubric url FetchOutcome.raise = none ∧
    analyze_job rubric url (FetchOutcome.ok 200 rawText (some none)) = none ∧
    (rubric.staleKeywords.any (fun k => occursIn k (lowerStr rawText)) = false →
      ∃ r, analyze_job rubric url (FetchOutcome.ok 200 rawText none) = some r ∧
        r.jobTitle = "Unknown Role" ∧ r.company = "Unknown") := by
  refine ⟨rfl, ?_, ?_⟩
  · by_cases h : rubric.staleKeywords.any (fun k => occursIn k (lowerStr rawText)) = true
    · simp [analyze_job, h]
    · simp only [Bool.not_eq_true] at h
      simp [analyze_job, h]
  · intro hstale
    have h1 : analyze_job rubric url (FetchOutcome.ok 200 rawText none) =
        some { company := companyOf "Unknown Role"
               jobTitle := "Unknown Role"
               location := "India (Check Link)"
               matchScore := (scoreSkills rubric.coreSkills (lowerStr rawText)).1
               whyMatches := String.intercalate ", "
                 (scoreSkills rubric.coreSkills (lowerStr rawText)).2.1
               warnings := String.intercalate ", "
                 (rubric.warningSkills.filter (fun bad => occursIn bad (lowerStr rawText)))
               missingKeywords := String.intercalate ", "
                 (scoreSkills rubric.coreSkills (lowerStr rawText)).2.2
               url := url } := by
      simp [analyze_job, hstale]
    exact ⟨_, h1, rfl, show companyOf "Unknown Role" = "Unknown" by decide⟩

/-- C2 witness: a raising fetch yields `none`; the same non-stale page with
no title element yields a record titled "Unknown Role". -/
theorem analyze_exception_yields_none_witness :
    CONFIG.staleKeywords.any (fun k => occursIn k (lowerStr "gcp")) = false ∧
    analyze_job CONFIG "u" FetchOutcome.raise = none ∧
    analyze_job CONFIG "u" (FetchOutcome.ok 200 "gcp" (some none)) = none ∧
    (analyze_job CONFIG "u" (FetchOutcome.ok 200 "gcp" none)).isSome = true := by
  refine ⟨by decide, ?_⟩
  obtain ⟨h1, h2, h3⟩ := analyze_exception_yields_none CONFIG "u" "gcp"
  obtain ⟨r, hr, -, -⟩ := h3 (by decide)
  exact ⟨h1, h2, by rw [hr]; rfl⟩

/-- C1 (amended): with zero new links the run writes no report and attempts
no notification, and it returns early WITHOUT calling the history save — the
on-disk history file is left untouched (hence unchanged), but the loaded
set is not re-persisted. -/
theorem run_zero_new_links (rubric : Rubric) (history0 : Finset String)
    (rawLinks : List String) (fetchOf : String → FetchOutcome)
    (h : new_links rawLinks history0 = []) :
    (runMain rubric history0 rawLinks fetchOf).reportRows = none ∧
    (runMain rubric history0 rawLinks fetchOf).sendEmailCalled = false ∧
    (runMain rubric history0 rawLinks fetchOf).savedHistory = none := by
  simp [runMain, h]

/-- C1 counterexample: on a concrete zero-new-links run the orchestrator
does NOT persist the loaded history set — `save_history` is never reached
(`savedHistory = none`), refuting "the orchestrator still persists the
loaded history set before terminating". -/
theorem run_zero_new_links_no_save_cex :
    new_links ["https://a.co/job1"] {"https://a.co/job1"} = [] ∧
    (runMain CONFIG {"https://a.co/job1"} ["https://a.co/job1"]
        (fun _ => FetchOutcome.raise)).savedHistory = none := by
  decide

/-- C1 witness: a concrete zero-new-links run with no report, no
notification and no history save. -/
theorem run_zero_new_links_witness :
    new_links ["https://b.co/j"] {"https://b.co/j"} = [] ∧
    ((runMain CONFIG {"https://b.co/j"} ["https://b.co/j"]
        (fun _ => FetchOutcome.raise)).reportRows = none ∧
     (runMain CONFIG {"https://b.co/j"} ["https://b.co/j"]
        (fun _ => FetchOutcome.raise)).sendEmailCalled = false ∧
     (runMain CONFIG {"https://b.co/j"} ["https://b.co/j"]
        (fun _ => FetchOutcome.raise)).savedHistory = none) :=
  ⟨by decide,
   run_zero_new_links CONFIG {"https://b.co/j"} ["https://b.co/j"]
     (fun _ => FetchOutcome.raise) (by decide)⟩

/-- C5: after a run that examined at least one new link, the history is
saved, the saved set contains every examined link (and nothing besides the
loaded history and the examined links), the examined links are exactly the
new links, each occurs only once, and none of them was already in the
loaded history — so each is added exactly once, regardless of analysis
outcome. -/
theorem run_history_superset (rubric : Rubric) (history0 : Finset String)
    (rawLinks : List String) (fetchOf : String → FetchOutcome)
    (hnd : rawLinks.Nodup) (hne : new_links rawLinks history0 ≠ []) :
    ∃ H, (runMain rubric history0 rawLinks fetchOf).savedHistory = some H ∧
      (runMain rubric history0 rawLinks fetchOf).examined = new_links rawLinks history0 ∧
      (∀ l ∈ new_links rawLinks history0, l ∈ H) ∧
      (∀ x, x ∈ H ↔ x ∈ history0 ∨ x ∈ new_links rawLinks history0) ∧
      (new_links rawLinks history0).Nodup ∧
      (∀ l ∈ new_links rawLinks history0, l ∉ history0) := by
  have hni : (new_links rawLinks history0).isEmpty = false := by
    cases hx : new_links rawLinks history0 with
    | nil => exact absurd hx hne
    | cons a t => rfl
  refine ⟨(new_links rawLinks history0).foldl (fun s a => insert a s) history0,
    ?_, ?_, ?_, ?_, ?_, ?_⟩
  · by_cases ha : (analyzed_jobs rubric (new_links rawLinks history0) fetchOf).isEmpty = true <;>
      simp [runMain, hni, ha]
  · by_cases ha : (analyzed_jobs rubric (new_links rawLinks history0) fetchOf).isEmpty = true <;>
      simp [runMain, hni, ha]
  · intro l hl
    exact (mem_foldl_insert _ _ _).mpr (Or.inr hl)
  · intro x
    exact mem_foldl_insert _ _ x
  · exact hnd.filter _
  · intro l hl
    simp only [new_links, List.mem_filter] at hl
    exact of_decide_eq_true hl.2

/-- C5 witness: a one-link run saves a history equal to the loaded set plus
that link, and examined exactly that link. -/
theorem run_history_superset_witness :
    ((["https://c.co/j"] : List String).Nodup ∧
      new_links ["https://c.co/j"] (∅ : Finset String) ≠ []) ∧
    (runMain CONFIG ∅ ["https://c.co/j"] (fun _ => FetchOutcome.raise)).savedHistory ≠ none ∧
    (runMain CONFIG ∅ ["https://c.co/j"]
        (fun _ => FetchOutcome.raise)).examined = ["https://c.co/j"] := by
  refine ⟨⟨by decide, by decide⟩, ?_, ?_⟩ <;>
    obtain ⟨H, hH, hex, -, -, -, -⟩ := run_history_superset CONFIG ∅ ["https://c.co/j"]
      (fun _ => FetchOutcome.raise) (by decide) (by decide)
  · rw [hH]
    exact Option.some_ne_none H
  · rw [hex]
    decide

/-- The report rows, when a report is written, are exactly the stable
descending sort of the retained records. -/
theorem runMain_reportRows_cases (rubric : Rubric) (history0 : Finset String)
    (rawLinks : List String) (fetchOf : String → FetchOutcome) :
    (runMain rubric history0 rawLinks fetchOf).reportRows = none ∨
    (runMain rubric history0 rawLinks fetchOf).reportRows =
      some (sortJobs ((runMain rubric history0 rawLinks fetchOf).analyzedJobs)) := by
  by_cases h1 : (new_links rawLinks history0).isEmpty = true
  · left
    simp [runMain, h1]
  · by_cases h2 : (analyzed_jobs rubric (new_links rawLinks history0) fetchOf).isEmpty = true
    · left
      simp [runMain, h1, h2]
    · right
      simp [runMain, h1, h2]

/-- C7: for every (non-empty) collection of retained records, the report
order is a permutation of the discovery order, sorted by score in
descending order, and the sort is stable: two records with equal scores
that appear in a given order in the input appear in the same order in the
report; and the rows the orchestrator writes are exactly this sort of the
retained records. -/
theorem report_sorted_descending_stable (jobs : List JobRecord) (_hne : jobs ≠ []) :
    (sortJobs jobs).Pairwise (fun a b => b.matchScore ≤ a.matchScore) ∧
    (sortJobs jobs).Perm jobs ∧
    (∀ a b : JobRecord, a.matchScore = b.matchScore →
      ([a, b]).Sublist jobs → ([a, b]).Sublist (sortJobs jobs)) ∧
    (∀ (rubric : Rubric) (history0 : Finset String) (rawLinks : List String)
        (fetchOf : String → FetchOutcome) (rows : List JobRecord),
      (runMain rubric history0 rawLinks fetchOf).reportRows = some rows →
      rows = sortJobs ((runMain rubric history0 rawLinks fetchOf).analyzedJobs)) := by
  have htrans : ∀ (a b c : JobRecord),
      decide (b.matchScore ≤ a.matchScore) = true →
      decide (c.matchScore ≤ b.matchScore) = true →
      decide (c.matchScore ≤ a.matchScore) = true := by
    intro a b c hab hbc
    rw [decide_eq_true_eq] at hab hbc ⊢
    exact le_trans hbc hab
  have htotal : ∀ (a b : JobRecord),
      (decide (b.matchScore ≤ a.matchScore) || decide (a.matchScore ≤ b.matchScore)) = true := by
    intro a b
    rcases le_total b.matchScore a.matchScore with h | h <;> simp [h]
  refine ⟨?_, List.mergeSort_perm jobs _, ?_, ?_⟩
  · exact (List.sorted_mergeSort htrans htotal jobs).imp (fun h => of_decide_eq_true h)
  · intro a b hab hsub
    exact List.pair_sublist_mergeSort htrans htotal
      (decide_eq_true (le_of_eq hab.symm)) hsub
  · intro rubric history0 rawLinks fetchOf rows hrows
    rcases runMain_reportRows_cases rubric history0 rawLinks fetchOf with h | h
    · rw [h] at hrows
      exact Option.noConfusion hrows
    · rw [h] at hrows
      injection hrows with h'
      exact h'.symm

/-- C7 witness: on three concrete records (two of them tied at score 2, one
at score 4) the tied pair keeps its discovery order in the sorted report,
which is a permutation of the input. -/
theorem report_sorted_descending_stable_witness :
    ([sampleJobA, sampleJobB, sampleJobC] ≠ ([] : List JobRecord)) ∧
    ([sampleJobA, sampleJobB]).Sublist (sortJobs [sampleJobA, sampleJobB, sampleJobC]) ∧
    (sortJobs [sampleJobA, sampleJobB, sampleJobC]).Perm [sampleJobA, sampleJobB, sampleJobC] := by
  refine ⟨by decide, ?_, ?_⟩
  · exact (report_sorted_descending_stable [sampleJobA, sampleJobB, sampleJobC] (by decide)).2.2.1
      sampleJobA sampleJobB (by decide)
      (List.Sublist.cons₂ _ (List.Sublist.cons₂ _ (List.Sublist.cons _ List.Sublist.slnil)))
  · exact (report_sorted_descending_stable [sampleJobA, sampleJobB, sampleJobC] (by decide)).2.1

/-- C9: when the sender or the credential is absent from the environment,
the notifier returns the skip outcome without raising, leaves the file
system untouched, and in particular the previously written report file
still exists with its content. -/
theorem email_skip_on_missing_credentials (env : Env) (jobList : List JobRecord)
    (filename : String) (fs : List (String × String)) (smtpOk : Bool)
    (h : env.sender = none ∨ env.password = none) :
    (send_email env jobList filename fs smtpOk).1 = EmailOutcome.skipped ∧
    (send_email env jobList filename fs smtpOk).2 = fs ∧
    (∀ name content, fs.lookup name = some content →
      (send_email env jobList filename fs smtpOk).2.lookup name = some content) := by
  have hf : (falsyEnv env.sender || falsyEnv env.password) = true := by
    rcases h with h | h <;> simp [h, falsyEnv]
  refine ⟨by simp [send_email, hf], by simp [send_email, hf], ?_⟩
  intro name content hc
  simpa [send_email, hf] using hc

/-- C9 witness: sender absent, report file present: the call skips and the
report file is still on disk with its content. -/
theorem email_skip_on_missing_credentials_witness :
    ((Env.mk none (some "pw") (some "to")).sender = none ∨
      (Env.mk none (some "pw") (some "to")).password = none) ∧
    (send_email (Env.mk none (some "pw") (some "to")) [] "jobs.csv"
        [("jobs.csv", "data")] true).1 = EmailOutcome.skipped ∧
    (send_email (Env.mk none (some "pw") (some "to")) [] "jobs.csv"
        [("jobs.csv", "data")] true).2 = [("jobs.csv", "data")] := by
  refine ⟨Or.inl rfl, ?_, ?_⟩
  · exact (email_skip_on_missing_credentials (Env.mk none (some "pw") (some "to")) []
      "jobs.csv" [("jobs.csv", "data")] true (Or.inl rfl)).1
  · exact (email_skip_on_missing_credentials (Env.mk none (some "pw") (some "to")) []
      "jobs.csv" [("jobs.csv", "data")] true (Or.inl rfl)).2.1

/-- C10: the skip condition tests only sender and credential: with both
present (non-falsy) and the recipient absent, the skip branch is never
taken for any job list or file system; and in the state in which the
orchestrator calls the notifier (a non-empty retained list and the report
file just written), the message is composed with an empty (absent)
recipient and transmission is attempted — a transmission failure is caught
(the failed-logged outcome) rather than propagated. -/
theorem email_attempted_without_recipient (env : Env) (filename : String)
    (fs : List (String × String)) (smtpOk : Bool)
    (hs : falsyEnv env.sender = false) (hp : falsyEnv env.password = false)
    (hr : env.recipient = none) :
    (∀ jobList : List JobRecord,
      (send_email env jobList filename fs smtpOk).1 ≠ EmailOutcome.skipped) ∧
    (∀ (top : JobRecord) (rest : List JobRecord) (content : String),
      fs.lookup filename = some content →
      ∃ msg, (send_email env (top :: rest) filename fs smtpOk).1 =
          (if smtpOk then EmailOutcome.sent msg else EmailOutcome.failedLogged msg) ∧
        msg.toAddr = none) := by
  have hcond : (falsyEnv env.sender || falsyEnv env.password) = false := by
    simp [hs, hp]
  constructor
  · intro jobList
    cases jobList with
    | nil => simp [send_email, hcond]
    | cons top rest =>
      cases hfs : fs.lookup filename with
      | none => simp [send_email, hcond, hfs]
      | some content => cases smtpOk <;> simp [send_email, hcond, hfs]
  · intro top rest content hfs
    refine ⟨{ fromAddr := env.sender, toAddr := env.recipient,
              matchCount := (top :: rest).length, topJob := top,
              attachment := content }, ?_, hr⟩
    cases smtpOk <;> simp [send_email, hcond, hfs]

/-- C10 witness: sender and credential set, recipient absent, one retained
record, report file on disk, SMTP failing: the notifier does not skip, and
the composed message (empty recipient, the top record, the report content
attached) ends in the caught-failure outcome. -/
theorem email_attempted_without_recipient_witness :
    (falsyEnv (Env.mk (some "s") (some "p") none).sender = false ∧
      falsyEnv (Env.mk (some "s") (some "p") none).password = false ∧
      (Env.mk (some "s") (some "p") none).recipient = none ∧
      ([("jobs.csv", "data")] : List (String × String)).lookup "jobs.csv" = some "data") ∧
    (send_email (Env.mk (some "s") (some "p") none) [sampleJobA] "jobs.csv"
        [("jobs.csv", "data")] false).1 ≠ EmailOutcome.skipped ∧
    (send_email (Env.mk (some "s") (some "p") none) [sampleJobA] "jobs.csv"
        [("jobs.csv", "data")] false).1 =
      EmailOutcome.failedLogged
        { fromAddr := some "s", toAddr := none, matchCount := 1,
          topJob := sampleJobA, attachment := "data" } := by
  refine ⟨⟨by decide, by decide, rfl, by decide⟩, ?_, by decide⟩
  exact (email_attempted_without_recipient (Env.mk (some "s") (some "p") none) "jobs.csv"
      [("jobs.csv", "data")] false (by decide) (by decide) rfl).1 [sampleJobA]

end JobHunter
